import Mathlib

/-!
# Verification of the agent/room orchestrator

A shallow embedding of the core of the Agent-playground orchestrator:
the `Agent` class (src/agents/Agent.js) and the room-aware `AgentManager`
(the Mediasoup-integrated variant, src/unnamed/part_012), which owns the
agent registry, the agent↔room maps, the per-room turn-taking queue and
conversation state, and the speaking arbiter
(`startAgentSpeaking` / `stopAgentSpeaking` / `_processNextSpeaker` /
`handleTranscription` / `_triggerAgentResponses`).

JavaScript `Map`s are embedded as association lists in insertion order
(`Map.set` of a fresh key appends; `Map.set` of a present key updates in
place; `Map.delete` removes the entry), JS `Set`s as duplicate-free lists
in insertion order.  External collaborators (LLM, TTS, media client,
Redis) are modelled by explicit outcome parameters; uuids and wall-clock
timestamps are modelled by explicit arguments.  Numeric confidences are
embedded as rationals.
-/

namespace AgentPlayground

deriving instance DecidableEq for Except

/-! ## Association-list maps (JS `Map`) and sets (JS `Set`) -/

/-- `Map.get k` : first entry with key `k`. -/
def mget (k : String) : List (String × β) → Option β
  | [] => none
  | (k', v) :: rest => if k' == k then some v else mget k rest

/-- `Map.set k v` : update the entry for `k` in place, or append a fresh one. -/
def mset (k : String) (v : β) : List (String × β) → List (String × β)
  | [] => [(k, v)]
  | (k', v') :: rest => if k' == k then (k, v) :: rest else (k', v') :: mset k v rest

/-- `Map.delete k` : remove the entry for `k`. -/
def mdel (k : String) : List (String × β) → List (String × β)
  | [] => []
  | (k', v') :: rest => if k' == k then rest else (k', v') :: mdel k rest

/-- `Set.add x` : append `x` unless present. -/
def sadd (x : String) (s : List String) : List String :=
  if s.contains x then s else s ++ [x]

/-! ## Data model: Agent (src/agents/Agent.js) -/

/-- Agent status: the value set passed to `Agent.setStatus`
(`idle, speaking, listening, processing, thinking`). -/
inductive Status
  | idle
  | speaking
  | listening
  | processing
  | thinking
deriving DecidableEq

/-- Message type tags used by `Agent.addMessage` (`sent`, `received`, `system`). -/
inductive MsgType
  | sent
  | received
  | sys
deriving DecidableEq

/-- A history message.  The uuid `id` is omitted (fresh and never read by the
core); `from`/`to` are rendered `msgFrom`/`msgTo` (`from` is reserved);
ISO timestamps are embedded as naturals. -/
structure Message where
  mtype : MsgType
  content : String
  msgFrom : String
  msgTo : String
  timestamp : Nat
deriving DecidableEq

/-- The mutable per-agent record of the `Agent` class: id, persona, rolling
message history, status, and the metadata counters the claims mention.
(`createdAt`/`lastActivity` and the tts/llm config records are carried by the
source object but never branch the control flow modelled here.) -/
structure AgentState where
  agentId : String
  persona : String
  messageHistory : List Message
  status : Status
  totalMessages : Nat
  llmCalls : Nat
  ttsCalls : Nat
deriving DecidableEq

/-- The history cap in `Agent.addMessage`: "Keep message history manageable
(last 100 messages)". -/
def historyCap : Nat := 100

/-- `new Agent(persona, agentId, config, manager)`: status `idle`, empty
history, zeroed counters. -/
def mkAgent (persona agentId : String) : AgentState :=
  { agentId := agentId
    persona := persona
    messageHistory := []
    status := .idle
    totalMessages := 0
    llmCalls := 0
    ttsCalls := 0 }

/-- `Agent.setStatus`: every `Status` constructor is in the valid list, so the
source's invalid-status throw is unreachable in the embedding. -/
def AgentState.setStatus (a : AgentState) (s : Status) : AgentState :=
  { a with status := s }

/-- `Agent.addMessage`: push, bump `totalMessages`, then trim with
`slice(-100)` when the history exceeds 100 entries. -/
def AgentState.addMessage (a : AgentState) (m : Message) : AgentState :=
  let hist := a.messageHistory ++ [m]
  { a with
    messageHistory :=
      if hist.length > historyCap then hist.drop (hist.length - historyCap) else hist
    totalMessages := a.totalMessages + 1 }

/-- Outcome of the LLM collaborator for one `generateResponse` run:
`ready` is `llmService.isReady()`, `result` the `generateResponse` call
(`none` = the provider threw). -/
structure LLMOutcome where
  ready : Bool
  result : Option String
deriving DecidableEq

/-- `Agent.generateResponse`: throws when the LLM service is not ready,
otherwise sets status `thinking`, calls the provider, and on success bumps
`llmCalls` and returns the text; provider errors are re-thrown. -/
def AgentState.generateResponse (a : AgentState) (llm : LLMOutcome) :
    AgentState × Option String :=
  if !llm.ready then (a, none)
  else
    let a1 := a.setStatus .thinking
    match llm.result with
    | some text => ({ a1 with llmCalls := a1.llmCalls + 1 }, some text)
    | none => (a1, none)

/-- The fixed fallback reply of `Agent.processMessage`'s catch block. -/
def fallbackReply : String := "I'm having trouble processing that message right now."

/-- JS `x || 'broadcast'` on the incoming `from` field (empty string and the
absent field are falsy). -/
def orBroadcast (s : String) : String :=
  if s = "" then "broadcast" else s

/-- `Agent.processMessage`: set status `processing`, append the inbound
message, ask the LLM via `generateResponse`, append the outbound reply and set
status `idle`; the catch block sets status `idle`, builds the fixed fallback
reply, appends it and returns it. -/
def AgentState.processMessage (a : AgentState) (content msgFrom : String)
    (llm : LLMOutcome) (ts : Nat) : AgentState × Message :=
  let a1 := a.setStatus .processing
  let a2 := a1.addMessage ⟨.received, content, msgFrom, a1.agentId, ts⟩
  match a2.generateResponse llm with
  | (a3, some text) =>
    let resp : Message := ⟨.sent, text, a3.agentId, orBroadcast msgFrom, ts⟩
    let a4 := a3.addMessage resp
    (a4.setStatus .idle, resp)
  | (a3, none) =>
    let a4 := a3.setStatus .idle
    let resp : Message := ⟨.sent, fallbackReply, a4.agentId, orBroadcast msgFrom, ts⟩
    (a4.addMessage resp, resp)

/-- `Agent.speakResponse text` run to completion: throws when the TTS service
is not ready; otherwise sets status `speaking`, awaits TTS (`.ttsOk` = the
provider succeeded, bumping `ttsCalls`), and the `finally` block sets status
`idle` on both exits. -/
def AgentState.speakResponse (a : AgentState) (ttsReady ttsOk : Bool) :
    AgentState × Except Unit Unit :=
  if !ttsReady then (a, .error ())
  else
    let a1 := a.setStatus .speaking
    if ttsOk then
      (({ a1 with ttsCalls := a1.ttsCalls + 1 }).setStatus .idle, .ok ())
    else
      (a1.setStatus .idle, .error ())

/-- `Agent.speakResponse` observed at its suspension point: after
`setStatus('speaking')`, while `ttsService.generateSpeech` is awaited, the
agent's status is `speaking`.  This is an observable state of the event loop
(`none` when the not-ready throw fires first). -/
def AgentState.speakResponseAwaiting (a : AgentState) (ttsReady : Bool) :
    Option AgentState :=
  if !ttsReady then none else some (a.setStatus .speaking)

/-! ## Data model: AgentManager (src/unnamed/part_012) -/

/-- An entry of a room's turn-taking queue, as pushed by
`_triggerAgentResponses`: `{ agentId, message }`. -/
structure QueueEntry where
  agentId : String
  message : String
deriving DecidableEq

/-- An entry of a room's `conversationHistory`: either a spoken utterance
(`type: 'speech'`, pushed by `startAgentSpeaking`) or a transcription
(`type: 'transcription'`, pushed by `handleTranscription`). -/
inductive HistEntry
  | speech (agentId message : String) (timestamp : Nat)
  | transcription (sessionId text : String) (confidence : ℚ) (timestamp : Nat)
deriving DecidableEq

/-- A room's conversation state, as initialised by `spawnAgentIntoRoom`:
`{ currentSpeaker: null, speakingStartTime: null, conversationHistory: [] }`. -/
structure ConvState where
  currentSpeaker : Option String
  speakingStartTime : Option Nat
  conversationHistory : List HistEntry
deriving DecidableEq

/-- The mutable fields of an agent's pipelines record
(`_createAgentAudioPipelines`): the stored speaking-timeout handle, the
current producer id and the ASR session id.  The two pipeline objects
themselves are opaque external handles. -/
structure Pipelines where
  speakingTimeoutSet : Bool
  currentProducerId : Option String
  asrSessionId : Option String
deriving DecidableEq

/-- The `AgentManager` singleton's state: the agent registry and the six
per-room / per-agent maps, plus the configuration knobs read from the
environment in the constructor. -/
structure ManagerState where
  agents : List (String × AgentState)
  agentConnections : List String
  agentPipelines : List (String × Pipelines)
  roomAgents : List (String × List String)
  agentRooms : List (String × String)
  turnTakingQueue : List (String × List QueueEntry)
  conversationState : List (String × ConvState)
  maxAgents : Nat
  maxAgentsPerRoom : Nat
  speakingTimeLimit : Nat
deriving DecidableEq

/-- The constructor's defaults: `MAX_AGENTS || 10`,
`MAX_AGENTS_PER_ROOM || 5`, `SPEAKING_TIME_LIMIT || 30000`, empty maps. -/
def initialManagerState : ManagerState :=
  { agents := []
    agentConnections := []
    agentPipelines := []
    roomAgents := []
    agentRooms := []
    turnTakingQueue := []
    conversationState := []
    maxAgents := 10
    maxAgentsPerRoom := 5
    speakingTimeLimit := 30000 }

/-- Error kinds thrown by the manager's operations (JS `Error`s,
distinguished here by their message / provenance). -/
inductive MgrErr
  | capacityExceeded
  | notFound
  | alreadyInRoom
  | notInRoom
  | busy
  | notConnected
  | typeError
  | providerFailure
  | transportFailure
deriving DecidableEq

/-- JS truthiness of `conversationState.currentSpeaker` (`null` and the empty
string are falsy). -/
def jsTruthy : Option String → Bool
  | none => false
  | some s => s ≠ ""

/-- `agent.setStatus(s)` on a registry agent via the shared object reference
(`if (agent) agent.setStatus(...)` — a missing agent is a no-op where the
source guards, and the call sites modelled here all guard or pre-check). -/
def setAgentStatus (st : ManagerState) (agentId : String) (s : Status) : ManagerState :=
  match mget agentId st.agents with
  | some a => { st with agents := mset agentId (a.setStatus s) st.agents }
  | none => st

/-- `AgentManager.addAgent`: reject duplicates and the `maxAgents` limit with
a logged `false`, otherwise `Map.set` the agent. -/
def addAgent (st : ManagerState) (agent : AgentState) : ManagerState × Bool :=
  if (mget agent.agentId st.agents).isSome then (st, false)
  else if st.agents.length ≥ st.maxAgents then (st, false)
  else ({ st with agents := st.agents ++ [(agent.agentId, agent)] }, true)

/-- `AgentManager.createAgent(persona, agentId, config)`: throw
`Cannot create agent: maximum limit reached` at the cap, otherwise construct
the agent (`agentId || uuidv4()`, the uuid modelled by `freshId`) and
`addAgent` it. -/
def createAgent (st : ManagerState) (persona : String) (agentId : Option String)
    (freshId : String) : ManagerState × Except MgrErr String :=
  if st.agents.length ≥ st.maxAgents then (st, .error .capacityExceeded)
  else
    let aid := agentId.getD freshId
    ((addAgent st (mkAgent persona aid)).1, .ok aid)

/-- `AgentManager.removeAgent`: `false` when absent, otherwise delete the
registry entry (only) and emit `agent:deleted`. -/
def removeAgent (st : ManagerState) (agentId : String) : ManagerState × Bool :=
  if (mget agentId st.agents).isNone then (st, false)
  else ({ st with agents := mdel agentId st.agents }, true)

/-- JS strict equality (`===`) between the string `req.agentId` and the value
returned by `queue.shift()`.  The queue holds `{ agentId, message }` entry
objects, so the shifted value is an object, and strict equality between a
string and an object is always `false` in JavaScript. -/
def strictEqIdEntry (_a : String) (_e : QueueEntry) : Bool := false

/-- `AgentManager._processNextSpeaker(roomId)`: shift the head of the room's
queue, then look in the remaining queue for a request whose `agentId`
strictly equals the shifted value.  Because the shifted value is the entry
object itself (see `strictEqIdEntry`), the `find` never succeeds; in the
`some` arm the source would call `startAgentSpeaking` with the entry object
as the agent id, which `agentRooms.get` cannot resolve, so it would throw
before any mutation and the caller's catch would swallow it — state unchanged
either way. -/
def processNextSpeaker (st : ManagerState) (roomId : String) : ManagerState :=
  match mget roomId st.turnTakingQueue with
  | none => st
  | some [] => st
  | some (head :: rest) =>
    let st1 := { st with turnTakingQueue := mset roomId rest st.turnTakingQueue }
    match rest.find? (fun req => strictEqIdEntry req.agentId head) with
    | some _ => st1
    | none => st1

/-- First statement of `stopAgentSpeaking`'s try block: clear the stored
speaking timeout (`clearTimeout`; nulls the stored handle). -/
def clearSpeakingTimeout (st : ManagerState) (agentId : String) : ManagerState :=
  match mget agentId st.agentPipelines with
  | some p =>
    if p.speakingTimeoutSet then
      { st with
        agentPipelines :=
          mset agentId ({ p with speakingTimeoutSet := false }) st.agentPipelines }
    else st
  | none => st

/-- Second statement of the try block: stop audio production and null the
stored producer id.  `none` models the caught TypeError raised when a
producer id is set but the bot client is missing. -/
def stopProduction (st : ManagerState) (agentId : String) : Option ManagerState :=
  match mget agentId st.agentPipelines with
  | some p =>
    if p.currentProducerId.isSome then
      if st.agentConnections.contains agentId then
        some
          { st with
            agentPipelines :=
              mset agentId ({ p with currentProducerId := none }) st.agentPipelines }
      else none
    else some st
  | none => some st

/-- `AgentManager.stopAgentSpeaking(agentId)`: return silently when the agent
is in no room; otherwise, inside a catch-all `try`, clear the stored speaking
timeout, stop audio production and null the producer id (an abort here keeps
the mutations so far), reset the room's `currentSpeaker`/`speakingStartTime`
when this agent holds them (reading a missing conversation state likewise
aborts), set the agent `listening`, and process the next queued speaker.
The catch block only logs. -/
def stopAgentSpeaking (st : ManagerState) (agentId : String) : ManagerState :=
  match mget agentId st.agentRooms with
  | none => st
  | some roomId =>
    match stopProduction (clearSpeakingTimeout st agentId) agentId with
    | none => clearSpeakingTimeout st agentId
    | some st2 =>
      match mget roomId st2.conversationState with
      | none => st2
      | some cs =>
        processNextSpeaker
          (setAgentStatus
            (if cs.currentSpeaker == some agentId then
              { st2 with
                conversationState :=
                  mset roomId
                    ({ cs with currentSpeaker := none, speakingStartTime := none })
                    st2.conversationState }
            else st2) agentId .listening) roomId

/-- Which external call of `startAgentSpeaking`'s `try` block fails, if any.
`ttsFail` stands for a failure of TTS generation, audio conversion, track
creation or audio production — all before the pipelines record and the
conversation history are touched; `publishFail` for a failure of the final
Redis publish. -/
inductive SpeakIO
  | ok
  | ttsFail
  | publishFail
deriving DecidableEq

/-- Append an entry to a room's conversation history
(`conversationState.conversationHistory.push(...)`; no cap is applied). -/
def pushHistory (st : ManagerState) (roomId : String) (e : HistEntry) : ManagerState :=
  match mget roomId st.conversationState with
  | none => st
  | some cs =>
    { st with
      conversationState :=
        mset roomId ({ cs with conversationHistory := cs.conversationHistory ++ [e] })
          st.conversationState }

/-- `AgentManager.startAgentSpeaking(agentId, message)`: throw when the agent
is in no room; reading `currentSpeaker` off a missing conversation state is
an uncaught TypeError; throw `Another agent is currently speaking` when a
truthy current speaker differs from the caller; throw when the agent, its bot
client or its pipelines are missing.  Then, inside the `try`: set
`currentSpeaker`/`speakingStartTime`, set the agent `speaking`, run
TTS → convert → produce (`io = .ttsFail` throws here), arm the speaking
timeout and store the producer id, push the utterance on the conversation
history, and emit/publish (`io = .publishFail` throws here).  The catch block
runs `stopAgentSpeaking` and rethrows.  `now` is `Date.now()`, `producerId`
the id returned by `produceAudio`. -/
def startAgentSpeaking (st : ManagerState) (agentId message : String) (now : Nat)
    (producerId : String) (io : SpeakIO) : ManagerState × Except MgrErr Unit :=
  match mget agentId st.agentRooms with
  | none => (st, .error .notInRoom)
  | some roomId =>
    match mget roomId st.conversationState with
    | none => (st, .error .typeError)
    | some cs =>
      if jsTruthy cs.currentSpeaker && cs.currentSpeaker != some agentId then
        (st, .error .busy)
      else if (mget agentId st.agents).isNone
          || !st.agentConnections.contains agentId
          || (mget agentId st.agentPipelines).isNone then
        (st, .error .notConnected)
      else
        let st1 :=
          { st with
            conversationState :=
              mset roomId
                ({ cs with currentSpeaker := some agentId, speakingStartTime := some now })
                st.conversationState }
        let st2 := setAgentStatus st1 agentId .speaking
        match io with
        | .ttsFail => (stopAgentSpeaking st2 agentId, .error .providerFailure)
        | _ =>
          let st3 :=
            match mget agentId st2.agentPipelines with
            | some p =>
              { st2 with
                agentPipelines :=
                  mset agentId
                    ({ p with speakingTimeoutSet := true, currentProducerId := some producerId })
                    st2.agentPipelines }
            | none => st2
          let st4 := pushHistory st3 roomId (.speech agentId message now)
          match io with
          | .publishFail => (stopAgentSpeaking st4 agentId, .error .transportFailure)
          | _ => (st4, .ok ())

/-- `AgentManager._triggerAgentResponses(roomId, transcribedText)`: return
when the room has no agent set, when the room already has a truthy current
speaker, or when no attached agent has status `listening`; otherwise pick a
random listening agent (`pick` models `Math.random()`), run its
`processMessage` (from `'human'`), and if the reply content is truthy either
push `{agentId, message}` on the turn queue (when a speaker holds the floor
at the recheck) or start the agent speaking — any throw from the speak call
is swallowed by the catch.  The returned flag records whether
`processMessage` (and hence an LLM call) was reached. -/
def triggerAgentResponses (st : ManagerState) (roomId text : String) (pick : Nat)
    (llm : LLMOutcome) (now : Nat) (producerId : String) (io : SpeakIO) :
    ManagerState × Bool :=
  match mget roomId st.roomAgents with
  | none => (st, false)
  | some ras =>
    match mget roomId st.conversationState with
    | none => (st, false)
    | some cs =>
      if jsTruthy cs.currentSpeaker then (st, false)
      else
        let available := ras.filter (fun aid =>
          match mget aid st.agents with
          | some a => a.status == .listening
          | none => false)
        if available.isEmpty then (st, false)
        else
          let chosen := available.getD (pick % available.length) ""
          match mget chosen st.agents with
          | none => (st, false)
          | some a =>
            let pm := a.processMessage text "human" llm now
            let st1 := { st with agents := mset chosen pm.1 st.agents }
            if pm.2.content ≠ "" then
              match mget roomId st1.conversationState with
              | none => (st1, true)
              | some cs' =>
                if jsTruthy cs'.currentSpeaker then
                  match mget roomId st1.turnTakingQueue with
                  | none => (st1, true)
                  | some q =>
                    ({ st1 with
                        turnTakingQueue :=
                          mset roomId (q ++ [⟨chosen, pm.2.content⟩]) st1.turnTakingQueue },
                      true)
                else
                  ((startAgentSpeaking st1 chosen pm.2.content now producerId io).1, true)
            else (st1, true)

/-- The confidence floor hard-coded in `handleTranscription`
(`confidence < 0.7`). -/
def confidenceFloor : ℚ := 7 / 10

/-- A parsed `transcription:completed` payload:
`{ text, sessionId, confidence, isFinal }`. -/
structure Transcription where
  sessionId : String
  text : String
  confidence : ℚ
  isFinal : Bool
deriving DecidableEq

/-- `sessionId.split('_')[0]`: the prefix of the session id up to the first
underscore (the whole string when there is none) — structurally on the
character list. -/
def headBeforeUnderscore : List Char → List Char
  | [] => []
  | c :: rest => if c = '_' then [] else c :: headBeforeUnderscore rest

/-- `AgentManager._findRoomBySessionId`: session ids have the shape
`agentId_timestamp`; take the part before the first underscore and look the
agent's room up. -/
def findRoomBySessionId (st : ManagerState) (sessionId : String) : Option String :=
  mget ⟨headBeforeUnderscore sessionId.data⟩ st.agentRooms

/-- `AgentManager.handleTranscription(message)`: drop the transcription
entirely unless it is final with confidence ≥ 0.7; drop it when no room
resolves from the session id; otherwise push it on the room's conversation
history (when the room has a conversation state) and trigger agent
responses.  The returned flag is `triggerAgentResponses`'s: whether an LLM
call was reached. -/
def handleTranscription (st : ManagerState) (t : Transcription) (now : Nat)
    (pick : Nat) (llm : LLMOutcome) (producerId : String) (io : SpeakIO) :
    ManagerState × Bool :=
  if t.isFinal = false ∨ t.confidence < confidenceFloor then (st, false)
  else
    match findRoomBySessionId st t.sessionId with
    | none => (st, false)
    | some roomId =>
      let st1 :=
        match mget roomId st.conversationState with
        | some cs =>
          { st with
            conversationState :=
              mset roomId
                ({ cs with
                    conversationHistory :=
                      cs.conversationHistory ++
                        [.transcription t.sessionId t.text t.confidence now] })
                st.conversationState }
        | none => st
      triggerAgentResponses st1 roomId t.text pick llm now producerId io

/-- `AgentManager._cleanupAgentConnection(agentId)`: stop any ongoing
speaking, disconnect and delete the bot client, tear down and delete the
pipelines, and delete the agent's `agentRooms` entry.  The agent is NOT
removed from `roomAgents` here — `removeAgentFromRoom` does that separately,
but the `reconnectionFailed` bot-client handler and `spawnAgentIntoRoom`'s
catch call this function alone.  External teardown calls are modelled as
succeeding. -/
def cleanupAgentConnection (st : ManagerState) (agentId : String) : ManagerState :=
  let st1 := stopAgentSpeaking st agentId
  let st2 := { st1 with agentConnections := st1.agentConnections.erase agentId }
  let st3 := { st2 with agentPipelines := mdel agentId st2.agentPipelines }
  { st3 with agentRooms := mdel agentId st3.agentRooms }

/-- Which external call of `spawnAgentIntoRoom` fails, if any: `connectFail`
stands for a failure of `botClient.connect` or of pipeline creation (both
before any map is written); `publishFail` for a failure of the final Redis
publish (after every map is written).  Both land in the catch, which runs
`_cleanupAgentConnection` and rethrows. -/
inductive SpawnIO
  | ok
  | connectFail
  | publishFail
deriving DecidableEq

/-- `AgentManager.spawnAgentIntoRoom(agentId, roomId, options)`: throw when
the agent is unknown or already in a room or the room is at
`maxAgentsPerRoom`; otherwise connect a bot client and build pipelines
(`io = .connectFail` throws here), record the connection, pipelines and
`agentRooms` entry, initialise the room's agent set / queue / conversation
state on first use, add the agent to the room's set, set it `listening`, and
emit/publish (`io = .publishFail` throws here). -/
def spawnAgentIntoRoom (st : ManagerState) (agentId roomId : String) (io : SpawnIO) :
    ManagerState × Except MgrErr Unit :=
  match mget agentId st.agents with
  | none => (st, .error .notFound)
  | some _ =>
    if (mget agentId st.agentRooms).isSome then (st, .error .alreadyInRoom)
    else if ((mget roomId st.roomAgents).getD []).length ≥ st.maxAgentsPerRoom then
      (st, .error .capacityExceeded)
    else
      match io with
      | .connectFail => (cleanupAgentConnection st agentId, .error .providerFailure)
      | _ =>
        let st1 := { st with agentConnections := sadd agentId st.agentConnections }
        let st2 :=
          { st1 with agentPipelines := mset agentId ⟨false, none, none⟩ st1.agentPipelines }
        let st3 := { st2 with agentRooms := mset agentId roomId st2.agentRooms }
        let st4 :=
          if (mget roomId st3.roomAgents).isSome then st3
          else
            { st3 with
              roomAgents := mset roomId [] st3.roomAgents
              turnTakingQueue := mset roomId [] st3.turnTakingQueue
              conversationState := mset roomId ⟨none, none, []⟩ st3.conversationState }
        let st5 :=
          match mget roomId st4.roomAgents with
          | some ras => { st4 with roomAgents := mset roomId (sadd agentId ras) st4.roomAgents }
          | none => st4
        let st6 := setAgentStatus st5 agentId .listening
        match io with
        | .publishFail => (cleanupAgentConnection st6 agentId, .error .transportFailure)
        | _ => (st6, .ok ())

/-- `AgentManager.removeAgentFromRoom(agentId)`: throw when the agent is in
no room; otherwise run `_cleanupAgentConnection`, delete the agent from the
room's set (dropping the whole room, its queue and its conversation state
when the set empties), and set the agent `idle`. -/
def removeAgentFromRoom (st : ManagerState) (agentId : String) :
    ManagerState × Except MgrErr Unit :=
  match mget agentId st.agentRooms with
  | none => (st, .error .notInRoom)
  | some roomId =>
    let st1 := cleanupAgentConnection st agentId
    let st2 :=
      match mget roomId st1.roomAgents with
      | none => st1
      | some ras =>
        let ras' := ras.erase agentId
        if ras'.isEmpty then
          { st1 with
            roomAgents := mdel roomId st1.roomAgents
            turnTakingQueue := mdel roomId st1.turnTakingQueue
            conversationState := mdel roomId st1.conversationState }
        else { st1 with roomAgents := mset roomId ras' st1.roomAgents }
    (setAgentStatus st2 agentId .idle, .ok ())

/-- An `Agent.speakResponse` call observed at its TTS suspension point, on an
agent held in the manager's registry (the registry holds the live object, so
the status mutation is visible in manager state).  `speakResponse` is part of
the `Agent` public surface (`processMessageWithSpeech`, direct use by
callers) and consults no room state. -/
def managerAgentSpeakAwaiting (st : ManagerState) (agentId : String)
    (ttsReady : Bool) : ManagerState :=
  match mget agentId st.agents with
  | none => st
  | some a =>
    match a.speakResponseAwaiting ttsReady with
    | none => st
    | some a' => { st with agents := mset agentId a' st.agents }

/-- The agents of room `roomId` whose status is `speaking`. -/
def speakingAgentsInRoom (st : ManagerState) (roomId : String) : List String :=
  ((mget roomId st.roomAgents).getD []).filter (fun aid =>
    match mget aid st.agents with
    | some a => a.status == .speaking
    | none => false)

/-! ## Concrete scenario states (used by counterexamples and witnesses) -/

/-- Agent "a" with persona "P1", as after `createAgent` and a successful
`startAgentSpeaking`: status `speaking`. -/
def agA : AgentState := { mkAgent "P1" "a" with status := .speaking }

/-- Agent "b" with persona "P2", as after `spawnAgentIntoRoom`: status
`listening`. -/
def agB : AgentState := { mkAgent "P2" "b" with status := .listening }

/-- Room "r" holds attached agents "a" and "b" (both connected, with
pipelines); "a" is the current speaker with an armed speaking timeout and an
open producer; the turn queue and the conversation history are empty.  This
is the manager state after creating both agents, spawning both into "r" and
starting "a" speaking (modulo "a"'s empty utterance log, trimmed here to
keep evaluation small). -/
def stSpeaking : ManagerState :=
  { agents := [("a", agA), ("b", agB)]
    agentConnections := ["a", "b"]
    agentPipelines := [("a", ⟨true, some "prod-a", none⟩), ("b", ⟨false, none, none⟩)]
    roomAgents := [("r", ["a", "b"])]
    agentRooms := [("a", "r"), ("b", "r")]
    turnTakingQueue := [("r", [])]
    conversationState := [("r", ⟨some "a", some 100, []⟩)]
    maxAgents := 10
    maxAgentsPerRoom := 5
    speakingTimeLimit := 30000 }

/-- Like `stSpeaking`, but the speaker has just ended its turn ("a" back to
`listening`, no current speaker) and the turn queue holds the single request
`{agentId := "b", message := "hello"}`. -/
def stQueued : ManagerState :=
  { stSpeaking with
    agents := [("a", { agA with status := .listening }), ("b", agB)]
    turnTakingQueue := [("r", [⟨"b", "hello"⟩])]
    conversationState := [("r", ⟨none, none, []⟩)] }

/-- Like `stQueued` with an empty turn queue and a conversation history that
already holds 1000 entries — the spec's conversation-log cap. -/
def stBig : ManagerState :=
  { stQueued with
    turnTakingQueue := [("r", [])]
    conversationState := [("r", ⟨none, none, List.replicate 1000 (.speech "a" "x" 0)⟩)] }

/-! ## Invariants -/

/-- Key-uniqueness of the maps involved in the agent↔room binding, plus
duplicate-freedom of each room's agent set (all hold for states the manager
builds, since JS `Map` keys and `Set` members are unique). -/
def wfMaps (st : ManagerState) : Prop :=
  (st.agentRooms.map Prod.fst).Nodup ∧
  (st.roomAgents.map Prod.fst).Nodup ∧
  ∀ q ∈ st.roomAgents, q.2.Nodup

instance (st : ManagerState) : Decidable (wfMaps st) := by
  unfold wfMaps; infer_instance

/-- Mutual-inverse consistency of an agent→room list and a room→agents list:
every entry `(a, r)` has `a` in room `r`'s set, and every member of a room's
set maps back to that room. -/
def pairConsistent (ar : List (String × String))
    (ra : List (String × List String)) : Prop :=
  (∀ p ∈ ar, p.1 ∈ (mget p.2 ra).getD []) ∧
  (∀ q ∈ ra, ∀ a ∈ q.2, mget a ar = some q.1)

instance (ar : List (String × String)) (ra : List (String × List String)) :
    Decidable (pairConsistent ar ra) := by
  unfold pairConsistent; infer_instance

/-- Spec invariant 2 for a manager state: `agentRooms` and `roomAgents` are
mutual inverses. -/
def inverseMapsConsistent (st : ManagerState) : Prop :=
  pairConsistent st.agentRooms st.roomAgents

instance (st : ManagerState) : Decidable (inverseMapsConsistent st) := by
  unfold inverseMapsConsistent; infer_instance

/-! ## Map lemmas -/

theorem mget_mset_self (k : String) (v : β) (l : List (String × β)) :
    mget k (mset k v l) = some v := by
  induction l with
  | nil => simp [mget, mset]
  | cons hd tl ih =>
    obtain ⟨hk, hv⟩ := hd
    by_cases h : hk = k
    · simp [mget, mset, h]
    · simp [mget, mset, h, ih]

theorem mget_mset_ne (h : k' ≠ k) (v : β) (l : List (String × β)) :
    mget k' (mset k v l) = mget k' l := by
  induction l with
  | nil => simp [mget, mset, Ne.symm h]
  | cons hd tl ih =>
    obtain ⟨hk, hv⟩ := hd
    by_cases hh : hk = k
    · subst hh
      simp [mget, mset, Ne.symm h, h]
    · by_cases h2 : hk = k'
      · simp [mget, mset, hh, h2, h]
      · simp [mget, mset, hh, h2, ih]

theorem mget_mdel_ne (h : k' ≠ k) (l : List (String × β)) :
    mget k' (mdel k l) = mget k' l := by
  induction l with
  | nil => simp [mget, mdel]
  | cons hd tl ih =>
    obtain ⟨hk, hv⟩ := hd
    by_cases hh : hk = k
    · subst hh
      simp [mget, mdel, Ne.symm h]
    · by_cases h2 : hk = k'
      · simp [mget, mdel, hh, h2, h]
      · simp [mget, mdel, hh, h2, ih]

theorem mset_of_mget_none {k : String} {l : List (String × β)}
    (h : mget k l = none) (v : β) : mset k v l = l ++ [(k, v)] := by
  induction l with
  | nil => simp [mset]
  | cons hd tl ih =>
    obtain ⟨hk, hv⟩ := hd
    by_cases hh : hk = k
    · simp [mget, hh] at h
    · simp [mget, hh] at h
      simp [mset, hh, ih h]

theorem mdel_of_mget_none {k : String} {l : List (String × β)}
    (h : mget k l = none) : mdel k l = l := by
  induction l with
  | nil => rfl
  | cons hd tl ih =>
    obtain ⟨hk, hv⟩ := hd
    by_cases hh : hk = k
    · simp [mget, hh] at h
    · simp [mget, hh] at h
      simp [mdel, hh, ih h]

theorem mget_some_mem {k : String} {l : List (String × β)} {v : β}
    (h : mget k l = some v) : (k, v) ∈ l := by
  induction l with
  | nil => simp [mget] at h
  | cons hd tl ih =>
    obtain ⟨hk, hv⟩ := hd
    by_cases hh : hk = k
    · subst hh
      simp [mget] at h
      simp [h]
    · simp [mget, hh] at h
      exact List.mem_cons_of_mem _ (ih h)

theorem mem_mset_iff {l : List (String × β)} (hnd : (l.map Prod.fst).Nodup)
    (k : String) (v : β) (p : String × β) :
    p ∈ mset k v l ↔ p = (k, v) ∨ (p ∈ l ∧ p.1 ≠ k) := by
  induction l with
  | nil => simp [mset]
  | cons hd tl ih =>
    obtain ⟨hk, hv⟩ := hd
    simp only [List.map_cons, List.nodup_cons] at hnd
    by_cases hh : hk = k
    · subst hh
      have hknotin : ∀ q ∈ tl, q.1 ≠ hk := by
        intro q hq he
        exact hnd.1 (he ▸ List.mem_map_of_mem Prod.fst hq)
      simp only [mset, beq_self_eq_true, if_true]
      constructor
      · intro hp
        rcases List.mem_cons.mp hp with h1 | h1
        · exact Or.inl h1
        · exact Or.inr ⟨List.mem_cons_of_mem _ h1, hknotin p h1⟩
      · rintro (h1 | ⟨h1, h2⟩)
        · exact h1 ▸ List.mem_cons_self _ _
        · rcases List.mem_cons.mp h1 with h3 | h3
          · exact absurd (by simp [h3]) h2
          · exact List.mem_cons_of_mem _ h3
    · have hms : mset k v ((hk, hv) :: tl) = (hk, hv) :: mset k v tl := by
        simp [mset, hh]
      rw [hms]
      constructor
      · intro hp
        rcases List.mem_cons.mp hp with h1 | h1
        · exact Or.inr ⟨h1 ▸ List.mem_cons_self _ _, by simp [h1, hh]⟩
        · rcases (ih hnd.2).mp h1 with h2 | ⟨h2, h3⟩
          · exact Or.inl h2
          · exact Or.inr ⟨List.mem_cons_of_mem _ h2, h3⟩
      · rintro (h1 | ⟨h1, h2⟩)
        · exact List.mem_cons_of_mem _ ((ih hnd.2).mpr (Or.inl h1))
        · rcases List.mem_cons.mp h1 with h3 | h3
          · exact h3 ▸ List.mem_cons_self _ _
          · exact List.mem_cons_of_mem _ ((ih hnd.2).mpr (Or.inr ⟨h3, h2⟩))

theorem mem_mdel_iff {l : List (String × β)} (hnd : (l.map Prod.fst).Nodup)
    (k : String) (p : String × β) :
    p ∈ mdel k l ↔ p ∈ l ∧ p.1 ≠ k := by
  induction l with
  | nil => simp [mdel]
  | cons hd tl ih =>
    obtain ⟨hk, hv⟩ := hd
    simp only [List.map_cons, List.nodup_cons] at hnd
    by_cases hh : hk = k
    · subst hh
      have hknotin : ∀ q ∈ tl, q.1 ≠ hk := by
        intro q hq he
        exact hnd.1 (he ▸ List.mem_map_of_mem Prod.fst hq)
      simp only [mdel, beq_self_eq_true, if_true]
      constructor
      · intro hp
        exact ⟨List.mem_cons_of_mem _ hp, hknotin p hp⟩
      · rintro ⟨h1, h2⟩
        rcases List.mem_cons.mp h1 with h3 | h3
        · exact absurd (by simp [h3]) h2
        · exact h3
    · have hms : mdel k ((hk, hv) :: tl) = (hk, hv) :: mdel k tl := by
        simp [mdel, hh]
      rw [hms]
      constructor
      · intro hp
        rcases List.mem_cons.mp hp with h1 | h1
        · exact ⟨h1 ▸ List.mem_cons_self _ _, by simp [h1, hh]⟩
        · rcases (ih hnd.2).mp h1 with ⟨h2, h3⟩
          exact ⟨List.mem_cons_of_mem _ h2, h3⟩
      · rintro ⟨h1, h2⟩
        rcases List.mem_cons.mp h1 with h3 | h3
        · exact h3 ▸ List.mem_cons_self _ _
        · exact List.mem_cons_of_mem _ ((ih hnd.2).mpr ⟨h3, h2⟩)

theorem mem_sadd (x y : String) (s : List String) :
    x ∈ sadd y s ↔ x = y ∨ x ∈ s := by
  unfold sadd
  by_cases h : s.contains y
  · rw [if_pos h]
    have : y ∈ s := by simpa using h
    constructor
    · exact fun hx => Or.inr hx
    · rintro (rfl | hx)
      · exact this
      · exact hx
  · rw [if_neg h]
    simp [or_comm]


/-! ## Frame lemmas -/

theorem setAgentStatus_agentRooms (st : ManagerState) (aid : String) (s : Status) :
    (setAgentStatus st aid s).agentRooms = st.agentRooms := by
  unfold setAgentStatus; split <;> simp

theorem setAgentStatus_roomAgents (st : ManagerState) (aid : String) (s : Status) :
    (setAgentStatus st aid s).roomAgents = st.roomAgents := by
  unfold setAgentStatus; split <;> simp

theorem setAgentStatus_agentConnections (st : ManagerState) (aid : String) (s : Status) :
    (setAgentStatus st aid s).agentConnections = st.agentConnections := by
  unfold setAgentStatus; split <;> simp

theorem setAgentStatus_agentPipelines (st : ManagerState) (aid : String) (s : Status) :
    (setAgentStatus st aid s).agentPipelines = st.agentPipelines := by
  unfold setAgentStatus; split <;> simp

theorem setAgentStatus_conversationState (st : ManagerState) (aid : String) (s : Status) :
    (setAgentStatus st aid s).conversationState = st.conversationState := by
  unfold setAgentStatus; split <;> simp

theorem setAgentStatus_turnTakingQueue (st : ManagerState) (aid : String) (s : Status) :
    (setAgentStatus st aid s).turnTakingQueue = st.turnTakingQueue := by
  unfold setAgentStatus; split <;> simp

theorem processNextSpeaker_agents (st : ManagerState) (r : String) :
    (processNextSpeaker st r).agents = st.agents := by
  unfold processNextSpeaker
  split
  · simp
  · simp
  · split <;> simp

theorem processNextSpeaker_agentRooms (st : ManagerState) (r : String) :
    (processNextSpeaker st r).agentRooms = st.agentRooms := by
  unfold processNextSpeaker
  split
  · simp
  · simp
  · split <;> simp

theorem processNextSpeaker_roomAgents (st : ManagerState) (r : String) :
    (processNextSpeaker st r).roomAgents = st.roomAgents := by
  unfold processNextSpeaker
  split
  · simp
  · simp
  · split <;> simp

theorem processNextSpeaker_agentConnections (st : ManagerState) (r : String) :
    (processNextSpeaker st r).agentConnections = st.agentConnections := by
  unfold processNextSpeaker
  split
  · simp
  · simp
  · split <;> simp

theorem processNextSpeaker_agentPipelines (st : ManagerState) (r : String) :
    (processNextSpeaker st r).agentPipelines = st.agentPipelines := by
  unfold processNextSpeaker
  split
  · simp
  · simp
  · split <;> simp

theorem processNextSpeaker_conversationState (st : ManagerState) (r : String) :
    (processNextSpeaker st r).conversationState = st.conversationState := by
  unfold processNextSpeaker
  split
  · simp
  · simp
  · split <;> simp

theorem clearSpeakingTimeout_agents (st : ManagerState) (aid : String) :
    (clearSpeakingTimeout st aid).agents = st.agents := by
  unfold clearSpeakingTimeout
  split
  · split <;> simp
  · simp

theorem clearSpeakingTimeout_agentRooms (st : ManagerState) (aid : String) :
    (clearSpeakingTimeout st aid).agentRooms = st.agentRooms := by
  unfold clearSpeakingTimeout
  split
  · split <;> simp
  · simp

theorem clearSpeakingTimeout_roomAgents (st : ManagerState) (aid : String) :
    (clearSpeakingTimeout st aid).roomAgents = st.roomAgents := by
  unfold clearSpeakingTimeout
  split
  · split <;> simp
  · simp

theorem clearSpeakingTimeout_agentConnections (st : ManagerState) (aid : String) :
    (clearSpeakingTimeout st aid).agentConnections = st.agentConnections := by
  unfold clearSpeakingTimeout
  split
  · split <;> simp
  · simp

theorem clearSpeakingTimeout_turnTakingQueue (st : ManagerState) (aid : String) :
    (clearSpeakingTimeout st aid).turnTakingQueue = st.turnTakingQueue := by
  unfold clearSpeakingTimeout
  split
  · split <;> simp
  · simp

theorem clearSpeakingTimeout_conversationState (st : ManagerState) (aid : String) :
    (clearSpeakingTimeout st aid).conversationState = st.conversationState := by
  unfold clearSpeakingTimeout
  split
  · split <;> simp
  · simp

theorem stopProduction_proj {st st2 : ManagerState} {aid : String}
    (h : stopProduction st aid = some st2) :
    st2.agents = st.agents ∧
    st2.agentConnections = st.agentConnections ∧
    st2.roomAgents = st.roomAgents ∧
    st2.agentRooms = st.agentRooms ∧
    st2.turnTakingQueue = st.turnTakingQueue ∧
    st2.conversationState = st.conversationState := by
  unfold stopProduction at h
  split at h
  · split at h
    · split at h
      · cases h; simp
      · cases h
    · cases h; simp
  · cases h; simp

theorem stopAgentSpeaking_rooms (st : ManagerState) (aid : String) :
    (stopAgentSpeaking st aid).roomAgents = st.roomAgents ∧
    (stopAgentSpeaking st aid).agentRooms = st.agentRooms ∧
    (stopAgentSpeaking st aid).agentConnections = st.agentConnections := by
  unfold stopAgentSpeaking
  split
  · simp
  · split
    · simp [clearSpeakingTimeout_roomAgents, clearSpeakingTimeout_agentRooms,
        clearSpeakingTimeout_agentConnections]
    · next st2 hprod =>
      have h2 := stopProduction_proj hprod
      have h1r := clearSpeakingTimeout_roomAgents st aid
      have h1a := clearSpeakingTimeout_agentRooms st aid
      have h1c := clearSpeakingTimeout_agentConnections st aid
      split
      · exact ⟨h2.2.2.1.trans h1r, h2.2.2.2.1.trans h1a, h2.2.1.trans h1c⟩
      · simp only [processNextSpeaker_roomAgents, processNextSpeaker_agentRooms,
          processNextSpeaker_agentConnections, setAgentStatus_roomAgents,
          setAgentStatus_agentRooms, setAgentStatus_agentConnections]
        split <;>
          simp [h2.2.2.1.trans h1r, h2.2.2.2.1.trans h1a, h2.2.1.trans h1c]

theorem cleanup_rooms (st : ManagerState) (aid : String) :
    (cleanupAgentConnection st aid).roomAgents = st.roomAgents ∧
    (cleanupAgentConnection st aid).agentRooms = mdel aid st.agentRooms := by
  unfold cleanupAgentConnection
  simp [(stopAgentSpeaking_rooms st aid).1, (stopAgentSpeaking_rooms st aid).2.1]

/-- Transfer of the inverse-maps invariant along states with equal binding
maps. -/
theorem consistent_of_maps_eq {st st' : ManagerState}
    (h1 : st'.agentRooms = st.agentRooms) (h2 : st'.roomAgents = st.roomAgents)
    (h : inverseMapsConsistent st) : inverseMapsConsistent st' := by
  unfold inverseMapsConsistent at h ⊢
  rw [h1, h2]
  exact h

theorem mget_append_left {k : String} {l : List (String × β)} {v : β}
    (h : mget k l = some v) (m : List (String × β)) : mget k (l ++ m) = some v := by
  induction l with
  | nil => simp [mget] at h
  | cons hd tl ih =>
    obtain ⟨hk, hv⟩ := hd
    by_cases hh : hk = k
    · simp [mget, hh] at h ⊢
      exact h
    · simp [mget, hh] at h ⊢
      exact ih h

theorem mget_append_self {k : String} {l : List (String × β)}
    (h : mget k l = none) (v : β) : mget k (l ++ [(k, v)]) = some v := by
  induction l with
  | nil => simp [mget]
  | cons hd tl ih =>
    obtain ⟨hk, hv⟩ := hd
    by_cases hh : hk = k
    · simp [mget, hh] at h
    · simp [mget, hh] at h ⊢
      exact ih h

/-! ## Claim C10 -/

/-- C10: deleting an agent via `removeAgent` mutates only the agent
registry.  For any manager state and id — in particular for an agent still
attached to a room — the agent→room map, the room agent sets, the
media-client connection map, the pipeline map, the turn queues and the
conversation states are all left untouched, so no media resources are
released by the deletion. -/
theorem c10_removeAgent_frame (st : ManagerState) (aid : String) :
    (removeAgent st aid).1.agentConnections = st.agentConnections ∧
    (removeAgent st aid).1.agentPipelines = st.agentPipelines ∧
    (removeAgent st aid).1.roomAgents = st.roomAgents ∧
    (removeAgent st aid).1.agentRooms = st.agentRooms ∧
    (removeAgent st aid).1.turnTakingQueue = st.turnTakingQueue ∧
    (removeAgent st aid).1.conversationState = st.conversationState := by
  unfold removeAgent
  split <;> simp

/-! ## Claim C9 -/

theorem addMessage_no_trim {a : AgentState} (m : Message)
    (h : a.messageHistory.length ≤ 99) :
    a.addMessage m =
      { a with messageHistory := a.messageHistory ++ [m]
               totalMessages := a.totalMessages + 1 } := by
  unfold AgentState.addMessage historyCap
  have : ¬ ((a.messageHistory ++ [m]).length > 100) := by
    simp only [List.length_append, List.length_singleton]
    omega
  simp only [this, if_false, ite_false]

theorem processMessage_ok_eq (a : AgentState) (content msgFrom text : String)
    (ts : Nat) (hlen : a.messageHistory.length ≤ 98) :
    a.processMessage content msgFrom ⟨true, some text⟩ ts =
      ({ a with
          messageHistory := a.messageHistory ++
            [⟨.received, content, msgFrom, a.agentId, ts⟩,
             ⟨.sent, text, a.agentId, orBroadcast msgFrom, ts⟩]
          status := .idle
          totalMessages := a.totalMessages + 2
          llmCalls := a.llmCalls + 1 },
       ⟨.sent, text, a.agentId, orBroadcast msgFrom, ts⟩) := by
  have c1 : ¬ (100 < a.messageHistory.length + 1) := by omega
  have c2 : ¬ (100 < a.messageHistory.length + 1 + 1) := by omega
  have c3 : ¬ (100 < a.messageHistory.length + 2) := by omega
  simp [AgentState.processMessage, AgentState.generateResponse, AgentState.setStatus,
    AgentState.addMessage, historyCap, c1, c2, c3]

theorem processMessage_fail_eq (a : AgentState) (content msgFrom : String)
    (llm : LLMOutcome) (ts : Nat) (hlen : a.messageHistory.length ≤ 98)
    (hfail : llm.ready = false ∨ llm.result = none) :
    a.processMessage content msgFrom llm ts =
      ({ a with
          messageHistory := a.messageHistory ++
            [⟨.received, content, msgFrom, a.agentId, ts⟩,
             ⟨.sent, fallbackReply, a.agentId, orBroadcast msgFrom, ts⟩]
          status := .idle
          totalMessages := a.totalMessages + 2 },
       ⟨.sent, fallbackReply, a.agentId, orBroadcast msgFrom, ts⟩) := by
  have c1 : ¬ (100 < a.messageHistory.length + 1) := by omega
  have c2 : ¬ (100 < a.messageHistory.length + 1 + 1) := by omega
  have c3 : ¬ (100 < a.messageHistory.length + 2) := by omega
  obtain ⟨ready, result⟩ := llm
  rcases ready with _ | _
  · simp [AgentState.processMessage, AgentState.generateResponse, AgentState.setStatus,
      AgentState.addMessage, historyCap, c1, c2, c3]
  · rcases result with _ | text
    · simp [AgentState.processMessage, AgentState.generateResponse, AgentState.setStatus,
        AgentState.addMessage, historyCap, c1, c2, c3]
    · rcases hfail with h | h
      · cases h
      · cases h

/-- C9: `Agent.processMessage` sets the status to `processing`, appends the
inbound message, asks the LLM, appends the outbound reply to history and
finishes with status `idle`; when the LLM service is unavailable or the
provider fails it returns the fixed fallback reply (also appended) and the
agent's status is still `idle` afterwards.  Stated below the trim threshold
so the appended history is visible verbatim. -/
theorem c9_processMessage_spec (a : AgentState) (content msgFrom : String)
    (llm : LLMOutcome) (ts : Nat) (hlen : a.messageHistory.length ≤ 98) :
    ((a.processMessage content msgFrom llm ts).1.status = .idle) ∧
    (∀ text, llm = ⟨true, some text⟩ →
      (a.processMessage content msgFrom llm ts).1.messageHistory =
        a.messageHistory ++
          [⟨.received, content, msgFrom, a.agentId, ts⟩,
           ⟨.sent, text, a.agentId, orBroadcast msgFrom, ts⟩] ∧
      (a.processMessage content msgFrom llm ts).2.content = text ∧
      (a.processMessage content msgFrom llm ts).1.llmCalls = a.llmCalls + 1) ∧
    ((llm.ready = false ∨ llm.result = none) →
      (a.processMessage content msgFrom llm ts).2.content = fallbackReply ∧
      (a.processMessage content msgFrom llm ts).1.messageHistory =
        a.messageHistory ++
          [⟨.received, content, msgFrom, a.agentId, ts⟩,
           ⟨.sent, fallbackReply, a.agentId, orBroadcast msgFrom, ts⟩]) := by
  refine ⟨?_, ?_, ?_⟩
  · obtain ⟨ready, result⟩ := llm
    rcases ready with _ | _
    · rw [processMessage_fail_eq a content msgFrom ⟨false, result⟩ ts hlen (Or.inl rfl)]
    · rcases result with _ | text
      · rw [processMessage_fail_eq a content msgFrom ⟨true, none⟩ ts hlen (Or.inr rfl)]
      · rw [processMessage_ok_eq a content msgFrom text ts hlen]
  · rintro text rfl
    rw [processMessage_ok_eq a content msgFrom text ts hlen]
    exact ⟨rfl, rfl, rfl⟩
  · intro hfail
    rw [processMessage_fail_eq a content msgFrom llm ts hlen hfail]
    exact ⟨rfl, rfl⟩

/-- Witness for C9: a concrete agent processing "hi" from "u"; on the
successful LLM path the reply is the LLM text and the status ends `idle`; on
the failed path the reply is the fixed fallback. -/
theorem c9_processMessage_spec_witness :
    ((agB.processMessage "hi" "u" ⟨true, some "yo"⟩ 7).1.status = .idle ∧
     (agB.processMessage "hi" "u" ⟨true, some "yo"⟩ 7).2.content = "yo") ∧
    ((agB.processMessage "hi" "u" ⟨false, none⟩ 7).2.content = fallbackReply) :=
  ⟨⟨(c9_processMessage_spec agB "hi" "u" ⟨true, some "yo"⟩ 7 (by decide)).1,
    ((c9_processMessage_spec agB "hi" "u" ⟨true, some "yo"⟩ 7 (by decide)).2.1
      "yo" rfl).2.1⟩,
   ((c9_processMessage_spec agB "hi" "u" ⟨false, none⟩ 7 (by decide)).2.2
      (Or.inl rfl)).1⟩

/-! ## Claim C7 -/

/-- C7: capacity enforcement.  The defaults are a global cap of 10 and a
per-room cap of 5.  `createAgent` on a full registry throws
`CapacityExceeded`-style and leaves the state untouched; `createAgent` never
grows the registry beyond the cap; `spawnAgentIntoRoom` of a known,
unattached agent into a full room throws and leaves the state untouched. -/
theorem c7_capacity_caps :
    (initialManagerState.maxAgents = 10 ∧ initialManagerState.maxAgentsPerRoom = 5) ∧
    (∀ st persona aid fid, st.agents.length ≥ st.maxAgents →
      createAgent st persona aid fid = (st, .error .capacityExceeded)) ∧
    (∀ st persona aid fid, st.agents.length ≤ st.maxAgents →
      (createAgent st persona aid fid).1.agents.length ≤ st.maxAgents) ∧
    (∀ st agentId roomId io ag, mget agentId st.agents = some ag →
      mget agentId st.agentRooms = none →
      ((mget roomId st.roomAgents).getD []).length ≥ st.maxAgentsPerRoom →
      spawnAgentIntoRoom st agentId roomId io = (st, .error .capacityExceeded)) := by
  refine ⟨⟨rfl, rfl⟩, ?_, ?_, ?_⟩
  · intro st persona aid fid h
    unfold createAgent
    rw [if_pos h]
  · intro st persona aid fid h
    unfold createAgent addAgent
    by_cases h1 : st.agents.length ≥ st.maxAgents
    · rw [if_pos h1]
      exact h
    · rw [if_neg h1]
      dsimp only
      split
      · simpa using h
      · simp only [List.length_append, List.length_singleton]
        omega
  · intro st agentId roomId io ag hag hroom hcap
    unfold spawnAgentIntoRoom
    rw [hag]
    simp only [hroom, Option.isSome_none, Bool.false_eq_true, if_false, ite_false]
    rw [if_pos hcap]

/-- A registry at the default global cap: ten agents. -/
def stFull : ManagerState :=
  { initialManagerState with
    agents :=
      [("a0", mkAgent "p" "a0"), ("a1", mkAgent "p" "a1"), ("a2", mkAgent "p" "a2"),
       ("a3", mkAgent "p" "a3"), ("a4", mkAgent "p" "a4"), ("a5", mkAgent "p" "a5"),
       ("a6", mkAgent "p" "a6"), ("a7", mkAgent "p" "a7"), ("a8", mkAgent "p" "a8"),
       ("a9", mkAgent "p" "a9")] }

/-- `stFull` with room "r" already holding the default per-room cap of five
agents. -/
def stRoomFull : ManagerState :=
  { stFull with roomAgents := [("r", ["a0", "a1", "a2", "a3", "a4"])] }

/-- Witness for C7: the eleventh create on a ten-agent registry and the sixth
attach to a five-agent room are both rejected with the state unchanged. -/
theorem c7_capacity_caps_witness :
    createAgent stFull "p" none "fresh" = (stFull, .error .capacityExceeded) ∧
    spawnAgentIntoRoom stRoomFull "a5" "r" .ok = (stRoomFull, .error .capacityExceeded) :=
  ⟨c7_capacity_caps.2.1 stFull "p" none "fresh" (by decide),
   c7_capacity_caps.2.2.2 stRoomFull "a5" "r" .ok (mkAgent "p" "a5")
     (by decide) (by decide) (by decide)⟩

/-! ## Claim C3 -/

/-- C3 (code bug): at the failing input — room "r"'s turn queue holding the
single request `{agentId := "b", message := "hello"}`, agent "b" attached,
connected and `listening`, and no current speaker (the state right after a
speaker's turn ended) — `_processNextSpeaker` removes the head entry but
starts nobody: the queue empties, the room still has no current speaker, "b"
stays `listening`, and the queued utterance is lost.  The cause is
`queue.shift()` returning the entry object while the code then searches the
remaining queue for `req.agentId === <that object>`, which never holds. -/
theorem c3_processNextSpeaker_bug :
    processNextSpeaker stQueued "r" = { stQueued with turnTakingQueue := [("r", [])] } ∧
    (mget "r" (processNextSpeaker stQueued "r").conversationState).map
      (fun cs => cs.currentSpeaker) = some none ∧
    (mget "b" (processNextSpeaker stQueued "r").agents).map
      (fun a => a.status) = some .listening := by decide

/-! ## Claim C1 -/

/-- C1 (counterexample): in `stSpeaking`, "a" is room "r"'s current speaker
with status `speaking`; calling `Agent.speakResponse` on the attached agent
"b" (reachable through `processMessageWithSpeech` or direct use) sets "b"'s
status to `speaking` while the TTS call is awaited, with no room-level
check — so two agents attached to "r" are observed in status `speaking` at
once, refuting the single-speaker claim. -/
theorem c1_single_speaker_counterexample :
    (mget "r" stSpeaking.conversationState).map (fun cs => cs.currentSpeaker) =
      some (some "a") ∧
    (mget "a" stSpeaking.agents).map (fun a => a.status) = some .speaking ∧
    speakingAgentsInRoom (managerAgentSpeakAwaiting stSpeaking "b" true) "r" = ["a", "b"] ∧
    ¬ ((speakingAgentsInRoom (managerAgentSpeakAwaiting stSpeaking "b" true) "r").length ≤ 1) := by
  decide

/-- `startAgentSpeaking` while a different truthy agent holds the floor:
rejected with `Another agent is currently speaking`, state unchanged. -/
theorem startAgentSpeaking_busy_eq (st : ManagerState)
    (agentId roomId message : String) (cs : ConvState) (now : Nat) (pid : String)
    (io : SpeakIO)
    (hroom : mget agentId st.agentRooms = some roomId)
    (hcs : mget roomId st.conversationState = some cs)
    (hbusy : jsTruthy cs.currentSpeaker = true)
    (hne : cs.currentSpeaker ≠ some agentId) :
    startAgentSpeaking st agentId message now pid io = (st, .error .busy) := by
  have hcond : (jsTruthy cs.currentSpeaker && (cs.currentSpeaker != some agentId)) = true := by
    rw [hbusy]
    simpa using hne
  unfold startAgentSpeaking
  simp only [hroom, hcs, hcond, if_true, ite_true]

/-- C1 (amended): `startAgentSpeaking` does reject a request while a
different (truthy) agent is the room's current speaker, leaving the state
unchanged; but `Agent.speakResponse` sets an attached agent's status to
`speaking` without consulting any room state, so a second attached agent of
the same room can be in status `speaking` concurrently with the current
speaker. -/
theorem c1_single_speaker_amended (st st' : ManagerState)
    (agentId aid roomId message : String) (cs : ConvState) (a : AgentState)
    (now : Nat) (pid : String) (io : SpeakIO)
    (hroom : mget agentId st.agentRooms = some roomId)
    (hcs : mget roomId st.conversationState = some cs)
    (hbusy : jsTruthy cs.currentSpeaker = true)
    (hne : cs.currentSpeaker ≠ some agentId)
    (hag : mget aid st'.agents = some a) :
    startAgentSpeaking st agentId message now pid io = (st, .error .busy) ∧
    (mget aid (managerAgentSpeakAwaiting st' aid true).agents).map
      (fun x => x.status) = some .speaking := by
  constructor
  · exact startAgentSpeaking_busy_eq st agentId roomId message cs now pid io
      hroom hcs hbusy hne
  · unfold managerAgentSpeakAwaiting AgentState.speakResponseAwaiting
    rw [hag]
    simp [mget_mset_self, AgentState.setStatus]

/-- Witness for C1's amended theorem, at the concrete two-agent room of
`stSpeaking`. -/
theorem c1_single_speaker_amended_witness :
    startAgentSpeaking stSpeaking "b" "two" 200 "p" .ok = (stSpeaking, .error .busy) ∧
    (mget "b" (managerAgentSpeakAwaiting stSpeaking "b" true).agents).map
      (fun x => x.status) = some .speaking :=
  c1_single_speaker_amended stSpeaking stSpeaking "b" "b" "r" "two"
    ⟨some "a", some 100, []⟩ agB 200 "p" .ok (by decide) (by decide) (by decide)
    (by decide) (by decide)

/-! ## Claim C2 -/

theorem mset_mset_self (k : String) (v w : β) (l : List (String × β)) :
    mset k v (mset k w l) = mset k v l := by
  induction l with
  | nil => simp [mset]
  | cons hd tl ih =>
    obtain ⟨hk, hv⟩ := hd
    by_cases h : hk = k
    · simp [mset, h]
    · simp [mset, h, ih]

/-- The full result of a successful `startAgentSpeaking` run (no current
speaker, agent present with connection and pipelines, all external calls
succeed): conversation state gains the speaker, start time and utterance, the
agent's status becomes `speaking`, and the pipelines record arms the timeout
and stores the producer id. -/
theorem startAgentSpeaking_ok_eq (st : ManagerState)
    (agentId roomId message : String) (cs : ConvState) (ag : AgentState)
    (p : Pipelines) (now : Nat) (pid : String)
    (hroom : mget agentId st.agentRooms = some roomId)
    (hcs : mget roomId st.conversationState = some cs)
    (hfree : jsTruthy cs.currentSpeaker = false)
    (hag : mget agentId st.agents = some ag)
    (hconn : st.agentConnections.contains agentId = true)
    (hp : mget agentId st.agentPipelines = some p) :
    startAgentSpeaking st agentId message now pid .ok =
      ({ st with
          agents := mset agentId (ag.setStatus .speaking) st.agents
          agentPipelines :=
            mset agentId ⟨true, some pid, p.asrSessionId⟩ st.agentPipelines
          conversationState :=
            mset roomId
              ({ cs with
                  currentSpeaker := some agentId
                  speakingStartTime := some now
                  conversationHistory :=
                    cs.conversationHistory ++ [.speech agentId message now] })
              st.conversationState },
       .ok ()) := by
  unfold startAgentSpeaking setAgentStatus pushHistory
  simp only [hroom, hcs, hfree, Bool.false_and, Bool.false_eq_true, if_false,
    ite_false, hag, Option.isSome_some, Option.isNone_some, hconn, Bool.not_true,
    Bool.or_false, Bool.false_or, Bool.or_self, hp, mget_mset_self, mset_mset_self]

/-- C2 (counterexample): in `stSpeaking`, agent "a" is room "r"'s current
speaker; a speak request for the attached agent "b" (the REST `speak` route
calls `startAgentSpeaking` directly) is rejected with `Another agent is
currently speaking` and the state — in particular the turn queue — is left
unchanged: the request is not appended to the queue. -/
theorem c2_speak_queueing_counterexample :
    startAgentSpeaking stSpeaking "b" "two" 200 "p" .ok = (stSpeaking, .error .busy) ∧
    mget "r" (startAgentSpeaking stSpeaking "b" "two" 200 "p" .ok).1.turnTakingQueue =
      some [] := by decide

/-- C2 (amended): a speak request with no (truthy) current speaker starts the
agent speaking immediately — conversation state gains the speaker and the
utterance, the agent's status becomes `speaking`; a speak request while a
different agent holds the floor is rejected with an error and the state is
unchanged (nothing is queued).  Queue entries are appended only inside
`_triggerAgentResponses`, when a speaker appears between a transcript's
arrival and the LLM reply. -/
theorem c2_speak_queueing_amended (st : ManagerState)
    (agentId roomId message : String) (cs : ConvState) (ag : AgentState)
    (p : Pipelines) (now : Nat) (pid : String)
    (hroom : mget agentId st.agentRooms = some roomId)
    (hcs : mget roomId st.conversationState = some cs)
    (hag : mget agentId st.agents = some ag)
    (hconn : st.agentConnections.contains agentId = true)
    (hp : mget agentId st.agentPipelines = some p) :
    (cs.currentSpeaker = none →
      (startAgentSpeaking st agentId message now pid .ok).2 = .ok () ∧
      mget roomId (startAgentSpeaking st agentId message now pid .ok).1.conversationState =
        some
          ({ cs with
              currentSpeaker := some agentId
              speakingStartTime := some now
              conversationHistory :=
                cs.conversationHistory ++ [.speech agentId message now] }) ∧
      mget agentId (startAgentSpeaking st agentId message now pid .ok).1.agents =
        some (ag.setStatus .speaking) ∧
      mget roomId (startAgentSpeaking st agentId message now pid .ok).1.turnTakingQueue =
        mget roomId st.turnTakingQueue) ∧
    (jsTruthy cs.currentSpeaker = true → cs.currentSpeaker ≠ some agentId →
      startAgentSpeaking st agentId message now pid .ok = (st, .error .busy)) := by
  constructor
  · intro hnone
    rw [startAgentSpeaking_ok_eq st agentId roomId message cs ag p now pid hroom hcs
      (by rw [hnone]; rfl) hag hconn hp]
    exact ⟨rfl, by simp [mget_mset_self], by simp [mget_mset_self], rfl⟩
  · intro hbusy hne
    exact startAgentSpeaking_busy_eq st agentId roomId message cs now pid .ok
      hroom hcs hbusy hne

/-- Witness for C2's amended theorem: in `stQueued` (no current speaker),
agent "b"'s request starts immediately. -/
theorem c2_speak_queueing_amended_witness :
    (startAgentSpeaking stQueued "b" "hi" 7 "p" .ok).2 = .ok () ∧
    mget "r" (startAgentSpeaking stQueued "b" "hi" 7 "p" .ok).1.conversationState =
      some ⟨some "b", some 7, [.speech "b" "hi" 7]⟩ ∧
    mget "b" (startAgentSpeaking stQueued "b" "hi" 7 "p" .ok).1.agents =
      some (agB.setStatus .speaking) :=
  have h := (c2_speak_queueing_amended stQueued "b" "r" "hi" ⟨none, none, []⟩ agB
    ⟨false, none, none⟩ 7 "p" (by decide) (by decide) (by decide) (by decide)
    (by decide)).1 rfl
  ⟨h.1, h.2.1, h.2.2.1⟩

/-! ## Claim C6 -/

/-- 0.4 is below the 0.7 confidence floor. -/
theorem fourTenths_lt_floor : (4 : ℚ) / 10 < confidenceFloor := by
  unfold confidenceFloor
  norm_num

/-- C6 (amended): a transcription that is not final or whose confidence is
below the floor is dropped entirely by `handleTranscription` — the state is
returned untouched (nothing is appended to any conversation log) and no LLM
call is made. -/
theorem c6_low_confidence_amended (st : ManagerState) (t : Transcription)
    (now pick : Nat) (llm : LLMOutcome) (pid : String) (io : SpeakIO)
    (h : t.isFinal = false ∨ t.confidence < confidenceFloor) :
    handleTranscription st t now pick llm pid io = (st, false) := by
  unfold handleTranscription
  rw [if_pos h]

/-- Witness for C6's amended theorem: a final transcript with confidence 0.4
in the live room of `stSpeaking` is dropped without any state change or LLM
call. -/
theorem c6_low_confidence_amended_witness :
    handleTranscription stSpeaking ⟨"a_1", "mumble", 4 / 10, true⟩ 5 0
      ⟨true, some "ok"⟩ "p" .ok = (stSpeaking, false) :=
  c6_low_confidence_amended stSpeaking ⟨"a_1", "mumble", 4 / 10, true⟩ 5 0
    ⟨true, some "ok"⟩ "p" .ok (Or.inr fourTenths_lt_floor)

/-- C6 (counterexample): the claim says a below-floor final transcript is
appended to the room's conversation log; at the concrete input — a final
transcript with confidence 0.4 for the session of attached agent "a" — the
log stays empty (the state is untouched) and no LLM call is made. -/
theorem c6_low_confidence_counterexample :
    (mget "r" stSpeaking.conversationState).map (fun cs => cs.conversationHistory) =
      some [] ∧
    (handleTranscription stSpeaking ⟨"a_1", "mumble", 4 / 10, true⟩ 5 0
        ⟨true, some "ok"⟩ "p" .ok).2 = false ∧
    (mget "r"
        (handleTranscription stSpeaking ⟨"a_1", "mumble", 4 / 10, true⟩ 5 0
          ⟨true, some "ok"⟩ "p" .ok).1.conversationState).map
      (fun cs => cs.conversationHistory) = some [] := by
  refine ⟨by decide, ?_, ?_⟩ <;>
    · unfold handleTranscription
      rw [if_pos (Or.inr fourTenths_lt_floor)]
      try decide

/-! ## Claim C4 -/

theorem find_strictEq_none (head : QueueEntry) (l : List QueueEntry) :
    l.find? (fun req => strictEqIdEntry req.agentId head) = none := by
  induction l with
  | nil => rfl
  | cons hd tl ih => simp [List.find?, strictEqIdEntry, ih]

/-- What `stopAgentSpeaking` — the speaking-timeout handler — does to a room
whose current speaker it stops: the stored timeout is cleared and the
producer id closed, the room's current speaker and start time are reset
(its conversation history untouched: no forced-stop entry), the agent is set
`listening`, and the head of the turn queue is popped (`_processNextSpeaker`
starts nobody, see C3). -/
theorem stopAgentSpeaking_speaker_spec (st : ManagerState)
    (agentId roomId pid : String) (p : Pipelines) (cs : ConvState)
    (ag : AgentState) (q : List QueueEntry)
    (hroom : mget agentId st.agentRooms = some roomId)
    (hp : mget agentId st.agentPipelines = some p)
    (htimer : p.speakingTimeoutSet = true)
    (hprod : p.currentProducerId = some pid)
    (hconn : st.agentConnections.contains agentId = true)
    (hcs : mget roomId st.conversationState = some cs)
    (hsp : cs.currentSpeaker = some agentId)
    (hag : mget agentId st.agents = some ag)
    (hq : mget roomId st.turnTakingQueue = some q) :
    mget agentId (stopAgentSpeaking st agentId).agentPipelines =
      some ⟨false, none, p.asrSessionId⟩ ∧
    mget roomId (stopAgentSpeaking st agentId).conversationState =
      some ({ cs with currentSpeaker := none, speakingStartTime := none }) ∧
    mget agentId (stopAgentSpeaking st agentId).agents =
      some (ag.setStatus .listening) ∧
    mget roomId (stopAgentSpeaking st agentId).turnTakingQueue = some q.tail := by
  have e1 : clearSpeakingTimeout st agentId =
      { st with
        agentPipelines :=
          mset agentId ({ p with speakingTimeoutSet := false }) st.agentPipelines } := by
    unfold clearSpeakingTimeout
    rw [hp]
    simp [htimer]
  have e2 : stopProduction (clearSpeakingTimeout st agentId) agentId =
      some
        { st with
          agentPipelines :=
            mset agentId ⟨false, none, p.asrSessionId⟩ st.agentPipelines } := by
    rw [e1]
    unfold stopProduction
    simp only [mget_mset_self, hprod, Option.isSome_some, hconn, if_true, ite_true,
      mset_mset_self]
  have e3 : stopAgentSpeaking st agentId =
      processNextSpeaker
        { st with
          agentPipelines :=
            mset agentId ⟨false, none, p.asrSessionId⟩ st.agentPipelines
          conversationState :=
            mset roomId ({ cs with currentSpeaker := none, speakingStartTime := none })
              st.conversationState
          agents := mset agentId (ag.setStatus .listening) st.agents } roomId := by
    unfold stopAgentSpeaking
    simp only [hroom, e2, hcs, hsp, beq_self_eq_true, if_true, ite_true]
    unfold setAgentStatus
    simp only [hag]
  rw [e3]
  unfold processNextSpeaker
  rcases q with _ | ⟨qh, qt⟩
  · simp [hq, mget_mset_self]
  · simp [hq, find_strictEq_none, mget_mset_self]

/-- C4 (amended): the speaking time limit defaults to 30000 ms;
`startAgentSpeaking` arms the timer whose handler is `stopAgentSpeaking`, and
on expiry that handler stops audio production and closes the current producer
id, clears the stored timeout, resets the room's current speaker, sets the
agent `listening`, and pops the head of the turn queue — but it appends NO
forced-stop entry to the room's transcript (the conversation history is
returned unchanged in the room's state). -/
theorem c4_forced_stop_amended (st : ManagerState)
    (agentId roomId pid : String) (p : Pipelines) (cs : ConvState)
    (ag : AgentState) (q : List QueueEntry)
    (hroom : mget agentId st.agentRooms = some roomId)
    (hp : mget agentId st.agentPipelines = some p)
    (htimer : p.speakingTimeoutSet = true)
    (hprod : p.currentProducerId = some pid)
    (hconn : st.agentConnections.contains agentId = true)
    (hcs : mget roomId st.conversationState = some cs)
    (hsp : cs.currentSpeaker = some agentId)
    (hag : mget agentId st.agents = some ag)
    (hq : mget roomId st.turnTakingQueue = some q) :
    initialManagerState.speakingTimeLimit = 30000 ∧
    mget agentId (stopAgentSpeaking st agentId).agentPipelines =
      some ⟨false, none, p.asrSessionId⟩ ∧
    (mget roomId (stopAgentSpeaking st agentId).conversationState).map
      (fun c => c.currentSpeaker) = some none ∧
    (mget roomId (stopAgentSpeaking st agentId).conversationState).map
      (fun c => c.conversationHistory) = some cs.conversationHistory ∧
    mget agentId (stopAgentSpeaking st agentId).agents =
      some (ag.setStatus .listening) ∧
    mget roomId (stopAgentSpeaking st agentId).turnTakingQueue = some q.tail := by
  have h := stopAgentSpeaking_speaker_spec st agentId roomId pid p cs ag q
    hroom hp htimer hprod hconn hcs hsp hag hq
  refine ⟨rfl, h.1, ?_, ?_, h.2.2.1, h.2.2.2⟩
  · rw [h.2.1]
    rfl
  · rw [h.2.1]
    rfl

/-- Witness for C4's amended theorem at `stSpeaking` (agent "a" speaking with
an armed timer and an open producer). -/
theorem c4_forced_stop_amended_witness :
    mget "a" (stopAgentSpeaking stSpeaking "a").agentPipelines =
      some ⟨false, none, none⟩ ∧
    (mget "r" (stopAgentSpeaking stSpeaking "a").conversationState).map
      (fun c => c.conversationHistory) = some [] ∧
    mget "a" (stopAgentSpeaking stSpeaking "a").agents =
      some (agA.setStatus .listening) :=
  have h := c4_forced_stop_amended stSpeaking "a" "r" "prod-a"
    ⟨true, some "prod-a", none⟩ ⟨some "a", some 100, []⟩ agA [] (by decide)
    (by decide) (by decide) (by decide) (by decide) (by decide) (by decide)
    (by decide) (by decide)
  ⟨h.2.1, h.2.2.2.1, h.2.2.2.2.1⟩

/-- C4 (counterexample): the claim says a forced-stop entry is logged in the
room's transcript.  At the concrete state `stSpeaking` (speaker "a" with an
armed timer and open producer, exactly what the timeout handler sees) the
force-stop runs — the producer id is closed and the timer cleared — yet the
transcript is exactly as empty afterwards as before: no entry is logged. -/
theorem c4_forced_stop_counterexample :
    (mget "r" stSpeaking.conversationState).map (fun cs => cs.conversationHistory) =
      some [] ∧
    mget "a" (stopAgentSpeaking stSpeaking "a").agentPipelines =
      some ⟨false, none, none⟩ ∧
    (mget "r" (stopAgentSpeaking stSpeaking "a").conversationState).map
      (fun cs => cs.conversationHistory) = some [] := by decide

/-! ## Claim C8 -/

/-- 0.95 is not below the 0.7 confidence floor. -/
theorem ninetyFive_not_lt_floor : ¬ ((95 : ℚ) / 100 < confidenceFloor) := by
  unfold confidenceFloor
  norm_num

/-- C8 (amended): every spoken utterance and every final, above-floor
transcription whose session resolves to a room is appended to that room's
conversation log — but the log is NOT bounded: no cap is applied, the length
always grows by exactly one (also beyond 1000 entries) and nothing is
dropped.  Part one: `startAgentSpeaking` (on a free floor) appends the
utterance; part two: `handleTranscription` (here while a speaker holds the
floor, so no response is triggered) appends the transcription. -/
theorem c8_conversation_log_amended (st : ManagerState)
    (agentId roomId message : String) (cs : ConvState) (ag : AgentState)
    (p : Pipelines) (now pick : Nat) (pid : String) (t : Transcription)
    (llm : LLMOutcome) (io : SpeakIO) (ras : List String)
    (hroom : mget agentId st.agentRooms = some roomId)
    (hcs : mget roomId st.conversationState = some cs)
    (hag : mget agentId st.agents = some ag)
    (hconn : st.agentConnections.contains agentId = true)
    (hp : mget agentId st.agentPipelines = some p)
    (hfin : t.isFinal = true)
    (hconf : ¬ (t.confidence < confidenceFloor))
    (hfind : mget (⟨headBeforeUnderscore t.sessionId.data⟩ : String) st.agentRooms =
      some roomId)
    (hra : mget roomId st.roomAgents = some ras) :
    (cs.currentSpeaker = none →
      (mget roomId (startAgentSpeaking st agentId message now pid .ok).1.conversationState).map
          (fun c => c.conversationHistory) =
        some (cs.conversationHistory ++ [.speech agentId message now]) ∧
      (mget roomId (startAgentSpeaking st agentId message now pid .ok).1.conversationState).map
          (fun c => c.conversationHistory.length) =
        some (cs.conversationHistory.length + 1)) ∧
    (jsTruthy cs.currentSpeaker = true →
      (handleTranscription st t now pick llm pid io).2 = false ∧
      (mget roomId (handleTranscription st t now pick llm pid io).1.conversationState).map
          (fun c => c.conversationHistory) =
        some (cs.conversationHistory ++
          [.transcription t.sessionId t.text t.confidence now]) ∧
      (mget roomId (handleTranscription st t now pick llm pid io).1.conversationState).map
          (fun c => c.conversationHistory.length) =
        some (cs.conversationHistory.length + 1)) := by
  constructor
  · intro hnone
    rw [startAgentSpeaking_ok_eq st agentId roomId message cs ag p now pid hroom hcs
      (by rw [hnone]; rfl) hag hconn hp]
    simp [mget_mset_self]
  · intro hbusy
    have hguard : ¬ (t.isFinal = false ∨ t.confidence < confidenceFloor) := by
      rintro (h1 | h1)
      · rw [hfin] at h1
        cases h1
      · exact hconf h1
    unfold handleTranscription findRoomBySessionId
    rw [if_neg hguard]
    simp only [hfind, hcs]
    unfold triggerAgentResponses
    simp only [hra, mget_mset_self, hbusy, if_true, ite_true]
    simp [mget_mset_self]

/-- Witness for C8's amended theorem: in `stQueued` (free floor) the spoken
utterance is appended; in `stSpeaking` (active speaker "a") a final
confidence-0.95 transcript for "a"'s session is appended while no response
is triggered. -/
theorem c8_conversation_log_amended_witness :
    ((mget "r" (startAgentSpeaking stQueued "b" "hi" 7 "p" .ok).1.conversationState).map
        (fun c => c.conversationHistory) = some [.speech "b" "hi" 7]) ∧
    ((handleTranscription stSpeaking ⟨"a_1", "hello", 95 / 100, true⟩ 5 0
        ⟨true, some "ok"⟩ "p" .ok).2 = false ∧
     (mget "r" (handleTranscription stSpeaking ⟨"a_1", "hello", 95 / 100, true⟩ 5 0
          ⟨true, some "ok"⟩ "p" .ok).1.conversationState).map
        (fun c => c.conversationHistory) =
      some [.transcription "a_1" "hello" (95 / 100) 5]) :=
  have h1 := (c8_conversation_log_amended stQueued "b" "r" "hi" ⟨none, none, []⟩
    agB ⟨false, none, none⟩ 7 0 "p" ⟨"b_1", "x", 95 / 100, true⟩
    ⟨true, some "ok"⟩ .ok ["a", "b"] (by decide) (by decide) (by decide)
    (by decide) (by decide) (by decide) ninetyFive_not_lt_floor (by decide)
    (by decide)).1 rfl
  have h2 := (c8_conversation_log_amended stSpeaking "a" "r" "x"
    ⟨some "a", some 100, []⟩ agA ⟨true, some "prod-a", none⟩ 5 0 "p"
    ⟨"a_1", "hello", 95 / 100, true⟩ ⟨true, some "ok"⟩ .ok ["a", "b"]
    (by decide) (by decide) (by decide) (by decide) (by decide) (by decide)
    ninetyFive_not_lt_floor (by decide) (by decide)).2 (by decide)
  ⟨h1.1, h2.1, h2.2.1⟩

set_option maxRecDepth 1000000 in
/-- C8 (counterexample): the claim bounds every room log by 1000 entries with
the oldest dropped; at `stBig` — room "r" already holding 1000 log entries —
a successful `startAgentSpeaking` leaves a log of 1001 entries: nothing is
dropped and the cap does not exist. -/
theorem c8_conversation_log_counterexample :
    (mget "r" stBig.conversationState).map
      (fun cs => cs.conversationHistory.length) = some 1000 ∧
    (mget "r" (startAgentSpeaking stBig "a" "x" 1 "p" .ok).1.conversationState).map
      (fun cs => cs.conversationHistory.length) = some 1001 := by
  constructor
  · decide
  · rw [startAgentSpeaking_ok_eq stBig "a" "r" "x"
      ⟨none, none, List.replicate 1000 (.speech "a" "x" 0)⟩
      ({ agA with status := .listening }) ⟨true, some "prod-a", none⟩ 1 "p" (by decide)
      (by decide) (by decide) (by decide) (by decide) (by decide)]
    simp [mget_mset_self]

/-! ## Claim C5 -/

/-- Attaching a fresh agent `a` to room `r` preserves mutual-inverse
consistency: the agent-rooms list gains `(a, r)` at the end, and room `r`'s
set becomes `S'`, which holds exactly `a` and the previous members. -/
theorem attach_pairConsistent (ar : List (String × String))
    (ra : List (String × List String)) (a r : String) (S' : List String)
    (hndRA : (ra.map Prod.fst).Nodup)
    (hnone : mget a ar = none)
    (hcons : pairConsistent ar ra)
    (hS' : ∀ x, x ∈ S' ↔ x = a ∨ x ∈ (mget r ra).getD []) :
    pairConsistent (ar ++ [(a, r)]) (mset r S' ra) := by
  obtain ⟨hc1, hc2⟩ := hcons
  constructor
  · intro p hp
    rcases List.mem_append.mp hp with hp1 | hp1
    · by_cases hpr : p.2 = r
      · rw [hpr, mget_mset_self]
        exact (hS' p.1).mpr (Or.inr (hpr ▸ hc1 p hp1))
      · rw [mget_mset_ne hpr]
        exact hc1 p hp1
    · have hpe : p = (a, r) := by simpa using hp1
      rw [hpe]
      simp only [mget_mset_self]
      exact (hS' a).mpr (Or.inl rfl)
  · intro q hq x hx
    rcases (mem_mset_iff hndRA r S' q).mp hq with hq1 | ⟨hq1, hq2⟩
    · rw [hq1] at hx ⊢
      rcases (hS' x).mp hx with hx1 | hx1
      · rw [hx1]
        exact mget_append_self hnone r
      · rcases hR : mget r ra with _ | ras
        · rw [hR] at hx1
          simp at hx1
        · rw [hR] at hx1
          simp only [Option.getD_some] at hx1
          exact mget_append_left (hc2 (r, ras) (mget_some_mem hR) x hx1) _
    · exact mget_append_left (hc2 q hq1 x hx) _

/-- Detaching agent `a` from room `r` when the set empties: the room's entry
(and the agent's) are deleted; consistency is preserved. -/
theorem detach_pairConsistent_del (ar : List (String × String))
    (ra : List (String × List String)) (a r : String) (ras : List String)
    (hndAR : (ar.map Prod.fst).Nodup)
    (hndRA : (ra.map Prod.fst).Nodup)
    (hndS : ∀ q ∈ ra, q.2.Nodup)
    (hroom : mget a ar = some r)
    (hras : mget r ra = some ras)
    (hempty : ras.erase a = [])
    (hcons : pairConsistent ar ra) :
    pairConsistent (mdel a ar) (mdel r ra) := by
  obtain ⟨hc1, hc2⟩ := hcons
  have hrasnd : ras.Nodup := hndS (r, ras) (mget_some_mem hras)
  constructor
  · intro p hp
    obtain ⟨hp1, hp2⟩ := (mem_mdel_iff hndAR a p).mp hp
    by_cases hpr : p.2 = r
    · exfalso
      have hmem : p.1 ∈ ras := by
        have := hc1 p hp1
        rw [hpr, hras] at this
        simpa using this
      have : p.1 ∈ ras.erase a := (hrasnd.mem_erase_iff).mpr ⟨hp2, hmem⟩
      rw [hempty] at this
      simp at this
    · rw [mget_mdel_ne hpr]
      exact hc1 p hp1
  · intro q hq x hx
    obtain ⟨hq1, hq2⟩ := (mem_mdel_iff hndRA r q).mp hq
    have hxa : x ≠ a := by
      intro hxe
      have := hc2 q hq1 x hx
      rw [hxe, hroom] at this
      cases this
      exact hq2 rfl
    rw [mget_mdel_ne hxa]
    exact hc2 q hq1 x hx

/-- Detaching agent `a` from room `r` when other members remain: `a` is
erased from the room's set; consistency is preserved. -/
theorem detach_pairConsistent_set (ar : List (String × String))
    (ra : List (String × List String)) (a r : String) (ras : List String)
    (hndAR : (ar.map Prod.fst).Nodup)
    (hndRA : (ra.map Prod.fst).Nodup)
    (hndS : ∀ q ∈ ra, q.2.Nodup)
    (hroom : mget a ar = some r)
    (hras : mget r ra = some ras)
    (hcons : pairConsistent ar ra) :
    pairConsistent (mdel a ar) (mset r (ras.erase a) ra) := by
  obtain ⟨hc1, hc2⟩ := hcons
  have hrasnd : ras.Nodup := hndS (r, ras) (mget_some_mem hras)
  constructor
  · intro p hp
    obtain ⟨hp1, hp2⟩ := (mem_mdel_iff hndAR a p).mp hp
    by_cases hpr : p.2 = r
    · rw [hpr, mget_mset_self]
      have hmem : p.1 ∈ ras := by
        have := hc1 p hp1
        rw [hpr, hras] at this
        simpa using this
      simpa using (hrasnd.mem_erase_iff).mpr ⟨hp2, hmem⟩
    · rw [mget_mset_ne hpr]
      exact hc1 p hp1
  · intro q hq x hx
    rcases (mem_mset_iff hndRA r (ras.erase a) q).mp hq with hq1 | ⟨hq1, hq2⟩
    · rw [hq1] at hx
      obtain ⟨hxa, hxras⟩ := (hrasnd.mem_erase_iff).mp hx
      rw [mget_mdel_ne hxa, hq1]
      exact hc2 (r, ras) (mget_some_mem hras) x hxras
    · have hxa : x ≠ a := by
        intro hxe
        have := hc2 q hq1 x hx
        rw [hxe, hroom] at this
        cases this
        exact hq2 rfl
      rw [mget_mdel_ne hxa]
      exact hc2 q hq1 x hx

/-- The full result of a successful `spawnAgentIntoRoom` run: connection and
pipelines recorded, `agentRooms` entry written, room structures initialised
on first use, the agent added to the room's set and set `listening`. -/
theorem spawn_ok_eq (st : ManagerState) (agentId roomId : String)
    (ag : AgentState) (hag : mget agentId st.agents = some ag)
    (hnone : mget agentId st.agentRooms = none)
    (hcap : ¬ (((mget roomId st.roomAgents).getD []).length ≥ st.maxAgentsPerRoom)) :
    spawnAgentIntoRoom st agentId roomId .ok =
      (setAgentStatus
        { st with
          agentConnections := sadd agentId st.agentConnections
          agentPipelines := mset agentId ⟨false, none, none⟩ st.agentPipelines
          agentRooms := mset agentId roomId st.agentRooms
          roomAgents :=
            mset roomId (sadd agentId ((mget roomId st.roomAgents).getD []))
              st.roomAgents
          turnTakingQueue :=
            if (mget roomId st.roomAgents).isSome then st.turnTakingQueue
            else mset roomId [] st.turnTakingQueue
          conversationState :=
            if (mget roomId st.roomAgents).isSome then st.conversationState
            else mset roomId ⟨none, none, []⟩ st.conversationState }
        agentId .listening, .ok ()) := by
  rcases hR : mget roomId st.roomAgents with _ | ras <;>
    rw [hR] at hcap <;>
    simp only [Option.getD_some, Option.getD_none, ge_iff_le, not_le] at hcap <;>
    simp [spawnAgentIntoRoom, hag, hnone, hR, mget_mset_self, mset_mset_self] <;>
    omega

theorem spawn_consistent_ok (st : ManagerState) (agentId roomId : String)
    (hwf : wfMaps st) (hcons : inverseMapsConsistent st) :
    inverseMapsConsistent (spawnAgentIntoRoom st agentId roomId .ok).1 := by
  rcases hag : mget agentId st.agents with _ | ag
  · unfold spawnAgentIntoRoom
    simp only [hag]
    exact hcons
  · by_cases hin : (mget agentId st.agentRooms).isSome
    · unfold spawnAgentIntoRoom
      simp only [hag, hin, if_true, ite_true]
      exact hcons
    · have hnone : mget agentId st.agentRooms = none := by
        rcases h : mget agentId st.agentRooms with _ | _
        · rfl
        · rw [h] at hin
          simp at hin
      by_cases hcap : ((mget roomId st.roomAgents).getD []).length ≥ st.maxAgentsPerRoom
      · unfold spawnAgentIntoRoom
        simp only [hag, hnone, Option.isSome_none, Bool.false_eq_true, if_false,
          ite_false, hcap, if_true, ite_true]
        exact hcons
      · rw [spawn_ok_eq st agentId roomId ag hag hnone hcap]
        refine consistent_of_maps_eq (setAgentStatus_agentRooms _ _ _)
          (setAgentStatus_roomAgents _ _ _) ?_
        unfold inverseMapsConsistent
        dsimp only
        rw [mset_of_mget_none hnone]
        exact attach_pairConsistent st.agentRooms st.roomAgents agentId roomId _
          hwf.2.1 hnone hcons (fun x => mem_sadd x agentId _)

theorem spawn_consistent_connectFail (st : ManagerState) (agentId roomId : String)
    (hcons : inverseMapsConsistent st) :
    inverseMapsConsistent (spawnAgentIntoRoom st agentId roomId .connectFail).1 := by
  rcases hag : mget agentId st.agents with _ | ag
  · unfold spawnAgentIntoRoom
    simp only [hag]
    exact hcons
  · by_cases hin : (mget agentId st.agentRooms).isSome
    · unfold spawnAgentIntoRoom
      simp only [hag, hin, if_true, ite_true]
      exact hcons
    · have hnone : mget agentId st.agentRooms = none := by
        rcases h : mget agentId st.agentRooms with _ | _
        · rfl
        · rw [h] at hin
          simp at hin
      by_cases hcap : ((mget roomId st.roomAgents).getD []).length ≥ st.maxAgentsPerRoom
      · unfold spawnAgentIntoRoom
        simp only [hag, hnone, Option.isSome_none, Bool.false_eq_true, if_false,
          ite_false, hcap, if_true, ite_true]
        exact hcons
      · unfold spawnAgentIntoRoom
        simp only [hag, hnone, Option.isSome_none, Bool.false_eq_true, if_false,
          ite_false, hcap]
        exact consistent_of_maps_eq
          (by rw [(cleanup_rooms st agentId).2, mdel_of_mget_none hnone])
          (cleanup_rooms st agentId).1 hcons

theorem remove_consistent (st : ManagerState) (agentId : String)
    (hwf : wfMaps st) (hcons : inverseMapsConsistent st) :
    inverseMapsConsistent (removeAgentFromRoom st agentId).1 := by
  rcases hroom : mget agentId st.agentRooms with _ | roomId
  · unfold removeAgentFromRoom
    simp only [hroom]
    exact hcons
  · have h1 := hcons.1 (agentId, roomId) (mget_some_mem hroom)
    rcases hras : mget roomId st.roomAgents with _ | ras
    · rw [hras] at h1
      simp at h1
    · rw [hras] at h1
      simp only [Option.getD_some] at h1
      unfold removeAgentFromRoom
      simp only [hroom, (cleanup_rooms st agentId).1, hras]
      by_cases hemp : (ras.erase agentId).isEmpty
      · simp only [hemp, if_true, ite_true]
        refine consistent_of_maps_eq (setAgentStatus_agentRooms _ _ _)
          (setAgentStatus_roomAgents _ _ _) ?_
        unfold inverseMapsConsistent
        dsimp only
        rw [(cleanup_rooms st agentId).2]
        exact detach_pairConsistent_del st.agentRooms st.roomAgents agentId roomId
          ras hwf.1 hwf.2.1 hwf.2.2 hroom hras (by simpa using hemp) hcons
      · simp only [hemp, Bool.false_eq_true, if_false, ite_false]
        refine consistent_of_maps_eq (setAgentStatus_agentRooms _ _ _)
          (setAgentStatus_roomAgents _ _ _) ?_
        unfold inverseMapsConsistent
        dsimp only
        rw [(cleanup_rooms st agentId).2]
        exact detach_pairConsistent_set st.agentRooms st.roomAgents agentId roomId
          ras hwf.1 hwf.2.1 hwf.2.2 hroom hras hcons

/-- C5 (amended): on a well-formed, consistent state, attaching (successful
or failing before the maps are written) and detaching keep the agent→room
map and the room→agents map mutual inverses — but the standalone
`_cleanupAgentConnection` path (the `reconnectionFailed` handler, or a
failure after the maps are written during attach) deletes only the
agent→room entry and leaves the agent in its room's set, breaking the
invariant (see the counterexample). -/
theorem c5_inverse_maps_amended (st : ManagerState) (agentId roomId : String)
    (hwf : wfMaps st) (hcons : inverseMapsConsistent st) :
    inverseMapsConsistent (spawnAgentIntoRoom st agentId roomId .ok).1 ∧
    inverseMapsConsistent (spawnAgentIntoRoom st agentId roomId .connectFail).1 ∧
    inverseMapsConsistent (removeAgentFromRoom st agentId).1 :=
  ⟨spawn_consistent_ok st agentId roomId hwf hcons,
   spawn_consistent_connectFail st agentId roomId hcons,
   remove_consistent st agentId hwf hcons⟩

/-- Witness for C5's amended theorem at `stSpeaking` (a consistent two-agent
room): detaching "a" keeps the maps mutual inverses; spawning the already
attached "a" is rejected and also keeps them. -/
theorem c5_inverse_maps_amended_witness :
    wfMaps stSpeaking ∧ inverseMapsConsistent stSpeaking ∧
    inverseMapsConsistent (spawnAgentIntoRoom stSpeaking "a" "r2" .ok).1 ∧
    inverseMapsConsistent (removeAgentFromRoom stSpeaking "a").1 :=
  have h := c5_inverse_maps_amended stSpeaking "a" "r2" (by decide) (by decide)
  ⟨by decide, by decide, h.1, h.2.2⟩

/-- C5 (counterexample): `stSpeaking` is consistent, but running
`_cleanupAgentConnection` on "a" (the reconnection-failure path) removes "a"
from the agent→room map while leaving it in room "r"'s agent set: the maps
are no longer mutual inverses. -/
theorem c5_inverse_maps_counterexample :
    inverseMapsConsistent stSpeaking ∧
    mget "a" (cleanupAgentConnection stSpeaking "a").agentRooms = none ∧
    "a" ∈ (mget "r" (cleanupAgentConnection stSpeaking "a").roomAgents).getD [] ∧
    ¬ inverseMapsConsistent (cleanupAgentConnection stSpeaking "a") := by decide

end AgentPlayground
